import Mathlib

/-!
Verification of the optical-mouse computer-vision pipeline.

Shallow embedding of the core of the repository
(`coordinate_transformer.py`, `cursor_controller.py`, `motion_tracker.py`,
and the dead-zone gate of `main.py`).  Python floats are modelled as
rationals (`ℚ`), Python ints as `ℤ`/`ℕ`, numpy arrays as lists, and the
platform (pyautogui) as an explicit oracle record, so every function in
the embedding is executable.
-/

namespace OpticalMouse

/-- Python's `int()` applied to a rational: truncation toward zero. -/
def pyTrunc (q : ℚ) : ℤ :=
  if 0 ≤ q then ⌊q⌋ else ⌈q⌉

/-- The `calibration_data` dictionary of `CoordinateTransformer`
(`coordinate_transformer.py`, `_initialize_calibration`). -/
structure Calibration where
  scale_x : ℚ
  scale_y : ℚ
  offset_x : ℚ
  offset_y : ℚ
  rotation : ℚ
  sensitivity : ℚ

/-- State of `CoordinateTransformer` (`coordinate_transformer.py`). -/
structure CoordinateTransformer where
  camera_width : ℤ
  camera_height : ℤ
  screen_width : ℤ
  screen_height : ℤ
  smoothing_factor : ℚ
  movement_buffer : List (ℚ × ℚ)
  calibration_data : Calibration

/-- `CoordinateTransformer._initialize_calibration`: scaling factors from
the camera and screen dimensions, zero offsets, unit sensitivity. -/
def initialize_calibration (camera_width camera_height screen_width screen_height : ℤ) :
    Calibration :=
  { scale_x := (screen_width : ℚ) / (camera_width : ℚ)
    scale_y := (screen_height : ℚ) / (camera_height : ℚ)
    offset_x := 0
    offset_y := 0
    rotation := 0
    sensitivity := 1 }

/-- `CoordinateTransformer.__init__`: fresh transformer with an empty
movement buffer and freshly initialized calibration. -/
def mkCoordinateTransformer (camera_width camera_height screen_width screen_height : ℤ)
    (smoothing_factor : ℚ) : CoordinateTransformer :=
  { camera_width := camera_width
    camera_height := camera_height
    screen_width := screen_width
    screen_height := screen_height
    smoothing_factor := smoothing_factor
    movement_buffer := []
    calibration_data :=
      initialize_calibration camera_width camera_height screen_width screen_height }

/-- `CoordinateTransformer.transform_coordinates`: scale, add offset,
multiply by sensitivity, clamp to `[0, dim − 1]`, truncate to `int`. -/
def CoordinateTransformer.transform_coordinates (t : CoordinateTransformer)
    (camera_x camera_y : ℚ) : ℤ × ℤ :=
  let screen_x := camera_x * t.calibration_data.scale_x + t.calibration_data.offset_x
  let screen_y := camera_y * t.calibration_data.scale_y + t.calibration_data.offset_y
  let sens_x := screen_x * t.calibration_data.sensitivity
  let sens_y := screen_y * t.calibration_data.sensitivity
  let clamp_x := max 0 (min ((t.screen_width : ℚ) - 1) sens_x)
  let clamp_y := max 0 (min ((t.screen_height : ℚ) - 1) sens_y)
  (pyTrunc clamp_x, pyTrunc clamp_y)

/-- Appending to a `collections.deque` with `maxlen=10`: the new element
goes to the back and the front is evicted once the length exceeds 10. -/
def dequePush (buf : List (ℚ × ℚ)) (x : ℚ × ℚ) : List (ℚ × ℚ) :=
  let b := buf ++ [x]
  if 10 < b.length then b.drop (b.length - 10) else b

/-- `CoordinateTransformer.apply_movement_smoothing`: append the raw delta
to the buffer; weight the new delta by `smoothing_factor` and add every
older buffered sample weighted by `(1 − smoothing_factor) / count`.
Returns the smoothed delta together with the updated transformer state. -/
def CoordinateTransformer.apply_movement_smoothing (t : CoordinateTransformer)
    (delta_x delta_y : ℚ) : (ℚ × ℚ) × CoordinateTransformer :=
  let buf := dequePush t.movement_buffer (delta_x, delta_y)
  let t2 := { t with movement_buffer := buf }
  if buf.length = 0 then ((0, 0), t2)
  else
    let smoothed_x := delta_x * t.smoothing_factor
    let smoothed_y := delta_y * t.smoothing_factor
    if 1 < buf.length then
      let prev_deltas := buf.dropLast
      let weight := (1 - t.smoothing_factor) / (prev_deltas.length : ℚ)
      ((smoothed_x + (prev_deltas.map (fun p => p.1 * weight)).sum,
        smoothed_y + (prev_deltas.map (fun p => p.2 * weight)).sum), t2)
    else
      ((smoothed_x, smoothed_y), t2)

/-- `CoordinateTransformer.set_sensitivity`: store the input clamped to
`[0.1, 5.0]` in the calibration dictionary. -/
def CoordinateTransformer.set_sensitivity (t : CoordinateTransformer) (sensitivity : ℚ) :
    CoordinateTransformer :=
  { t with calibration_data :=
      { t.calibration_data with sensitivity := max (1/10) (min 5 sensitivity) } }

/-- `CoordinateTransformer.set_smoothing_factor`: store the input clamped
to `[0, 1]`. -/
def CoordinateTransformer.set_smoothing_factor (t : CoordinateTransformer) (factor : ℚ) :
    CoordinateTransformer :=
  { t with smoothing_factor := max 0 (min 1 factor) }

/-- The 640×480 → 1920×1080 transformer used throughout the test suite
(`test_coordinate_transformer.py`, `smoothing_factor=0.3`). -/
def init640 : CoordinateTransformer :=
  mkCoordinateTransformer 640 480 1920 1080 (3/10)

/-- State of `CursorController` (`cursor_controller.py`): configuration and
the screen dimensions read once at construction. -/
structure CursorController where
  sensitivity : ℚ
  boundary_margin : ℤ
  movement_mode : String
  screen_width : ℤ
  screen_height : ℤ

/-- The pyautogui platform, as seen by one call: whether `position()`
succeeds (and with what value) and whether `moveTo` succeeds.  A failing
call raises, which the Python code catches. -/
structure Platform where
  queryOk : Bool
  pos : ℤ × ℤ
  setOk : Bool

/-- `CursorController.get_current_cursor_position`: returns the platform
position; if the query raises, the exception is caught and `(0, 0)` is
returned as a fallback. -/
def CursorController.get_current_cursor_position (_c : CursorController) (p : Platform) :
    ℤ × ℤ :=
  if p.queryOk then p.pos else (0, 0)

/-- `CursorController._apply_boundaries`: clamp each axis into
`[boundary_margin, dimension − boundary_margin]`, then truncate to `int`. -/
def CursorController.apply_boundaries (c : CursorController) (x y : ℚ) : ℤ × ℤ :=
  let bx := max (c.boundary_margin : ℚ) (min ((c.screen_width : ℚ) - (c.boundary_margin : ℚ)) x)
  let bz := max (c.boundary_margin : ℚ) (min ((c.screen_height : ℚ) - (c.boundary_margin : ℚ)) y)
  (pyTrunc bx, pyTrunc bz)

/-- `CursorController.move_cursor_relative`: scale the delta by
sensitivity, add it to the freshly queried position, clamp, and commit via
`moveTo`.  Returns the committed position, or `none` when `moveTo` raises
(the surrounding `try` swallows the exception and nothing is committed).
A failing position query does not abort the move: the fallback `(0, 0)`
from `get_current_cursor_position` is used instead. -/
def CursorController.move_cursor_relative (c : CursorController) (p : Platform)
    (delta_x delta_y : ℚ) : Option (ℤ × ℤ) :=
  let move_x := delta_x * c.sensitivity
  let move_y := delta_y * c.sensitivity
  let cur := c.get_current_cursor_position p
  let new_x := (cur.1 : ℚ) + move_x
  let new_y := (cur.2 : ℚ) + move_y
  let committed := c.apply_boundaries new_x new_y
  if p.setOk then some committed else none

/-- `CursorController.set_sensitivity`: store the input clamped to
`[0.1, 10.0]`. -/
def CursorController.set_sensitivity (c : CursorController) (sensitivity : ℚ) :
    CursorController :=
  { c with sensitivity := max (1/10) (min 10 sensitivity) }

/-- `CursorController.set_movement_mode`: accept only `"relative"` or
`"absolute"`; anything else is logged and the prior mode is kept. -/
def CursorController.set_movement_mode (c : CursorController) (mode : String) :
    CursorController :=
  if mode = "relative" ∨ mode = "absolute" then { c with movement_mode := mode } else c

/-- `CursorController.set_boundary_margin`: store the input clamped to
`[0, 500]`. -/
def CursorController.set_boundary_margin (c : CursorController) (margin : ℤ) :
    CursorController :=
  { c with boundary_margin := max 0 (min 500 margin) }

/-- The dead-zone gate of `OpticalMouseSystem.main_loop`
(`main.py`, lines 146–147): the actuator is invoked only when at least one
axis of the smoothed delta exceeds `0.5` in absolute value. -/
def main_loop_cursor_step (c : CursorController) (p : Platform)
    (smooth_x smooth_y : ℚ) : Option (ℤ × ℤ) :=
  if 1/2 < |smooth_x| ∨ 1/2 < |smooth_y| then
    c.move_cursor_relative p smooth_x smooth_y
  else
    none

/-- A cursor controller with the default configuration of
`CursorController.__init__` on a 1920×1080 screen. -/
def defaultController : CursorController :=
  { sensitivity := 1
    boundary_margin := 50
    movement_mode := "relative"
    screen_width := 1920
    screen_height := 1080 }

/-- A controller whose margin doubled exceeds both screen dimensions. -/
def degenerateController : CursorController :=
  { sensitivity := 1
    boundary_margin := 600
    movement_mode := "relative"
    screen_width := 1000
    screen_height := 1000 }

/-- Numpy boolean-mask selection `xs[status == 1]`: the elements of `xs`
whose parallel status flag equals 1. -/
def matchedOf {α : Type} (status : List ℕ) (xs : List α) : List α :=
  ((status.zip xs).filter (fun p => p.1 == 1)).map Prod.snd

/-- `MotionTracker.validate_tracking_quality`: reject an empty status set,
a matched fraction below one half, or (when the error array is non-empty)
a mean error over the matched points above the threshold. -/
def MotionTracker.validate_tracking_quality (status : List ℕ) (error : List ℚ)
    (threshold : ℚ) : Bool :=
  if status.length = 0 then false
  else
    let success_rate : ℚ := (status.sum : ℚ) / (status.length : ℚ)
    if success_rate < 1/2 then false
    else if 0 < error.length then
      let matched_err := matchedOf status error
      let avg_error := matched_err.sum / (matched_err.length : ℚ)
      if threshold < avg_error then false else true
    else true

/-- `MotionTracker.calculate_movement_delta`: average displacement of the
points whose status flag is 1; `(0, 0)` when either point list is empty or
no point is matched. -/
def MotionTracker.calculate_movement_delta (prev_points curr_points : List (ℚ × ℚ))
    (status : List ℕ) : ℚ × ℚ :=
  if prev_points.length = 0 ∨ curr_points.length = 0 then (0, 0)
  else
    let good_new := matchedOf status curr_points
    let good_old := matchedOf status prev_points
    if good_new.length = 0 then (0, 0)
    else
      let displacements := (good_new.zip good_old).map
        (fun p => (p.1.1 - p.2.1, p.1.2 - p.2.2))
      ((displacements.map Prod.fst).sum / (displacements.length : ℚ),
        (displacements.map Prod.snd).sum / (displacements.length : ℚ))

/-- The spec's `computeDelta`: mean of `current − previous` over the point
pairs whose status is matched, `(0, 0)` when no pair is matched. -/
def computeDelta_spec (prev_points curr_points : List (ℚ × ℚ)) (status : List ℕ) :
    ℚ × ℚ :=
  let disp := (matchedOf status (curr_points.zip prev_points)).map
    (fun p => (p.1.1 - p.2.1, p.1.2 - p.2.2))
  if disp.length = 0 then (0, 0)
  else ((disp.map Prod.fst).sum / (disp.length : ℚ),
    (disp.map Prod.snd).sum / (disp.length : ℚ))

/-- `MotionTracker._track_color`, parametrized by the stored previous
centroid and the detection result of the current frame: the delta is
`current − previous` when both are present, else `(0, 0)`, and the stored
previous centroid is overwritten with the current detection result
unconditionally.  Returns `(delta, new previous centroid)`. -/
def MotionTracker.track_color (prev_centroid : Option (ℤ × ℤ))
    (centroid : Option (ℤ × ℤ)) : (ℚ × ℚ) × Option (ℤ × ℤ) :=
  match centroid, prev_centroid with
  | some c, some p => (((c.1 : ℚ) - (p.1 : ℚ), (c.2 : ℚ) - (p.2 : ℚ)), some c)
  | _, _ => ((0, 0), centroid)

/- ### Helper lemmas about `pyTrunc` -/

theorem le_pyTrunc {a : ℤ} {q : ℚ} (h : (a : ℚ) ≤ q) : a ≤ pyTrunc q := by
  unfold pyTrunc
  split
  · exact Int.le_floor.mpr h
  · have h2 : (a : ℚ) ≤ (⌈q⌉ : ℚ) := le_trans h (Int.le_ceil q)
    exact_mod_cast h2

theorem pyTrunc_le {q : ℚ} {b : ℤ} (h : q ≤ (b : ℚ)) : pyTrunc q ≤ b := by
  unfold pyTrunc
  split
  · have h2 : ((⌊q⌋ : ℤ) : ℚ) ≤ (b : ℚ) := le_trans (Int.floor_le q) h
    exact_mod_cast h2
  · exact Int.ceil_le.mpr h

theorem pyTrunc_intCast (n : ℤ) : pyTrunc (n : ℚ) = n := by
  unfold pyTrunc
  split
  · exact Int.floor_intCast n
  · exact Int.ceil_intCast n

/-- Truncating a value clamped between the integer bounds `a ≤ b` lands in
`[a, b]`. -/
theorem pyTrunc_clamp_mem {a b : ℤ} (q : ℚ) (hab : (a : ℚ) ≤ (b : ℚ)) :
    a ≤ pyTrunc (max (a : ℚ) (min (b : ℚ) q)) ∧
      pyTrunc (max (a : ℚ) (min (b : ℚ) q)) ≤ b := by
  constructor
  · exact le_pyTrunc (le_max_left _ _)
  · exact pyTrunc_le (max_le hab (min_le_left _ _))

/-- C1: `transform_coordinates` always returns an integer pair inside
`[0, screen_width − 1] × [0, screen_height − 1]` (for positive screen
dimensions), and on the 640×480 → 1920×1080 transformer with zero offsets
and sensitivity 1 it maps `(-100, -100)` to `(0, 0)` and
`(10000, 10000)` to `(1919, 1079)`. -/
theorem transform_coordinates_in_bounds :
    (∀ (t : CoordinateTransformer) (x y : ℚ),
      1 ≤ t.screen_width → 1 ≤ t.screen_height →
        (0 ≤ (t.transform_coordinates x y).1 ∧
          (t.transform_coordinates x y).1 ≤ t.screen_width - 1) ∧
        (0 ≤ (t.transform_coordinates x y).2 ∧
          (t.transform_coordinates x y).2 ≤ t.screen_height - 1)) ∧
    init640.transform_coordinates (-100) (-100) = (0, 0) ∧
    init640.transform_coordinates 10000 10000 = (1919, 1079) := by
  refine ⟨?_, ?_, ?_⟩
  · intro t x y hw hh
    unfold CoordinateTransformer.transform_coordinates
    constructor
    · have hc : ((0 : ℤ) : ℚ) ≤ ((t.screen_width - 1 : ℤ) : ℚ) := by
        exact_mod_cast (by omega : (0 : ℤ) ≤ t.screen_width - 1)
      have h := pyTrunc_clamp_mem (b := t.screen_width - 1)
        ((x * t.calibration_data.scale_x + t.calibration_data.offset_x) *
          t.calibration_data.sensitivity) hc
      simpa [Int.cast_sub, Int.cast_one] using h
    · have hc : ((0 : ℤ) : ℚ) ≤ ((t.screen_height - 1 : ℤ) : ℚ) := by
        exact_mod_cast (by omega : (0 : ℤ) ≤ t.screen_height - 1)
      have h := pyTrunc_clamp_mem (b := t.screen_height - 1)
        ((y * t.calibration_data.scale_y + t.calibration_data.offset_y) *
          t.calibration_data.sensitivity) hc
      simpa [Int.cast_sub, Int.cast_one] using h
  · show (pyTrunc _, pyTrunc _) = _
    norm_num [init640, mkCoordinateTransformer, initialize_calibration, pyTrunc,
      min_def, max_def]
  · show (pyTrunc _, pyTrunc _) = _
    norm_num [init640, mkCoordinateTransformer, initialize_calibration, pyTrunc,
      min_def, max_def]

/-- Witness for C1 at concrete inputs. -/
theorem transform_coordinates_in_bounds_witness :
    1 ≤ init640.screen_width ∧ 1 ≤ init640.screen_height ∧
    ((0 ≤ (init640.transform_coordinates 5 7).1 ∧
        (init640.transform_coordinates 5 7).1 ≤ init640.screen_width - 1) ∧
      (0 ≤ (init640.transform_coordinates 5 7).2 ∧
        (init640.transform_coordinates 5 7).2 ≤ init640.screen_height - 1)) :=
  ⟨by decide, by decide,
    transform_coordinates_in_bounds.1 init640 5 7 (by decide) (by decide)⟩

/-- In the non-degenerate case `2·margin ≤ width`, the first component of
`_apply_boundaries` lies in `[margin, width − margin]`. -/
theorem apply_boundaries_fst_mem (c : CursorController) (x y : ℚ)
    (h : 2 * c.boundary_margin ≤ c.screen_width) :
    c.boundary_margin ≤ (c.apply_boundaries x y).1 ∧
      (c.apply_boundaries x y).1 ≤ c.screen_width - c.boundary_margin := by
  have hab : ((c.boundary_margin : ℤ) : ℚ) ≤ ((c.screen_width - c.boundary_margin : ℤ) : ℚ) := by
    exact_mod_cast (by omega : c.boundary_margin ≤ c.screen_width - c.boundary_margin)
  have h2 := pyTrunc_clamp_mem (a := c.boundary_margin)
    (b := c.screen_width - c.boundary_margin) x hab
  push_cast at h2
  exact h2

/-- In the non-degenerate case `2·margin ≤ height`, the second component of
`_apply_boundaries` lies in `[margin, height − margin]`. -/
theorem apply_boundaries_snd_mem (c : CursorController) (x y : ℚ)
    (h : 2 * c.boundary_margin ≤ c.screen_height) :
    c.boundary_margin ≤ (c.apply_boundaries x y).2 ∧
      (c.apply_boundaries x y).2 ≤ c.screen_height - c.boundary_margin := by
  have hab : ((c.boundary_margin : ℤ) : ℚ) ≤ ((c.screen_height - c.boundary_margin : ℤ) : ℚ) := by
    exact_mod_cast (by omega : c.boundary_margin ≤ c.screen_height - c.boundary_margin)
  have h2 := pyTrunc_clamp_mem (a := c.boundary_margin)
    (b := c.screen_height - c.boundary_margin) y hab
  push_cast at h2
  exact h2

/-- C5: when the platform position query and set both succeed,
`move_cursor_relative` commits exactly the freshly queried position plus
`sensitivity · (dx, dy)`, clamped per axis into
`[boundary_margin, dimension − boundary_margin]` and truncated to integer;
whenever `2·boundary_margin ≤ dimension`, the committed coordinate on that
axis lies in `[margin, dimension − margin]`. -/
theorem move_cursor_relative_commits (c : CursorController) (p : Platform) (dx dy : ℚ)
    (hq : p.queryOk = true) (hs : p.setOk = true) :
    c.move_cursor_relative p dx dy =
      some (c.apply_boundaries ((p.pos.1 : ℚ) + dx * c.sensitivity)
        ((p.pos.2 : ℚ) + dy * c.sensitivity)) ∧
    ∀ q : ℤ × ℤ, c.move_cursor_relative p dx dy = some q →
      (2 * c.boundary_margin ≤ c.screen_width →
        c.boundary_margin ≤ q.1 ∧ q.1 ≤ c.screen_width - c.boundary_margin) ∧
      (2 * c.boundary_margin ≤ c.screen_height →
        c.boundary_margin ≤ q.2 ∧ q.2 ≤ c.screen_height - c.boundary_margin) := by
  have h1 : c.move_cursor_relative p dx dy =
      some (c.apply_boundaries ((p.pos.1 : ℚ) + dx * c.sensitivity)
        ((p.pos.2 : ℚ) + dy * c.sensitivity)) := by
    unfold CursorController.move_cursor_relative CursorController.get_current_cursor_position
    simp [hq, hs]
  refine ⟨h1, ?_⟩
  intro q hcommit
  rw [h1] at hcommit
  have hq2 := Option.some.inj hcommit
  subst hq2
  exact ⟨fun hw => apply_boundaries_fst_mem c _ _ hw,
    fun hh => apply_boundaries_snd_mem c _ _ hh⟩

/-- Witness for C5 at a concrete controller, platform and delta. -/
theorem move_cursor_relative_commits_witness :
    (Platform.mk true (500, 500) true).queryOk = true ∧
    (Platform.mk true (500, 500) true).setOk = true ∧
    (defaultController.move_cursor_relative (Platform.mk true (500, 500) true) (3/2) (3/2) =
      some (defaultController.apply_boundaries ((500 : ℚ) + (3/2) * defaultController.sensitivity)
        ((500 : ℚ) + (3/2) * defaultController.sensitivity)) ∧
    ∀ q : ℤ × ℤ,
      defaultController.move_cursor_relative (Platform.mk true (500, 500) true) (3/2) (3/2) =
          some q →
        (2 * defaultController.boundary_margin ≤ defaultController.screen_width →
          defaultController.boundary_margin ≤ q.1 ∧
            q.1 ≤ defaultController.screen_width - defaultController.boundary_margin) ∧
        (2 * defaultController.boundary_margin ≤ defaultController.screen_height →
          defaultController.boundary_margin ≤ q.2 ∧
            q.2 ≤ defaultController.screen_height - defaultController.boundary_margin)) :=
  ⟨rfl, rfl,
    move_cursor_relative_commits defaultController (Platform.mk true (500, 500) true)
      (3/2) (3/2) rfl rfl⟩

/-- C6 counterexample: with a failing position query (and a succeeding
set), `move_cursor_relative` does NOT skip the frame's move — it commits a
position computed from the fallback `(0, 0)`.  Here the claim says no
cursor position is committed, yet `some (100, 100)` is committed. -/
theorem query_failure_still_commits_cex :
    (Platform.mk false (500, 500) true).queryOk = false ∧
    defaultController.move_cursor_relative (Platform.mk false (500, 500) true) 100 100 =
      some (100, 100) := by
  refine ⟨rfl, ?_⟩
  norm_num [CursorController.move_cursor_relative,
    CursorController.get_current_cursor_position, CursorController.apply_boundaries,
    defaultController, pyTrunc, min_def, max_def]

/-- C6 amended: when the platform position set raises, nothing is
committed (the frame's move is skipped and the exception is swallowed);
when the position query raises but the set succeeds, the move is still
committed, computed from the fallback position `(0, 0)` plus the
sensitivity-scaled delta, clamped. -/
theorem move_cursor_relative_failure_handling (c : CursorController) (p : Platform)
    (dx dy : ℚ) :
    (p.setOk = false → c.move_cursor_relative p dx dy = none) ∧
    (p.queryOk = false → p.setOk = true →
      c.move_cursor_relative p dx dy =
        some (c.apply_boundaries ((0 : ℚ) + dx * c.sensitivity)
          ((0 : ℚ) + dy * c.sensitivity))) := by
  constructor
  · intro hset
    unfold CursorController.move_cursor_relative
    simp [hset]
  · intro hquery hset
    unfold CursorController.move_cursor_relative CursorController.get_current_cursor_position
    simp [hquery, hset]

/-- Witness for the amended C6: a failing set commits nothing. -/
theorem move_cursor_relative_failure_handling_witness :
    defaultController.move_cursor_relative (Platform.mk true (7, 7) false) 1 1 = none :=
  (move_cursor_relative_failure_handling defaultController (Platform.mk true (7, 7) false)
    1 1).1 rfl

/-- C9: the dead-zone suppression lives in the orchestrating main loop:
the loop invokes `move_cursor_relative` exactly when some axis of the
smoothed delta exceeds `0.5` in absolute value, and skips actuation
exactly when both axes are at most `0.5`; the actuator itself applies no
dead zone (with a succeeding platform set it always commits). -/
theorem deadzone_enforced_in_main_loop (c : CursorController) (p : Platform) (sx sy : ℚ) :
    ((1/2 < |sx| ∨ 1/2 < |sy|) →
      main_loop_cursor_step c p sx sy = c.move_cursor_relative p sx sy) ∧
    ((|sx| ≤ 1/2 ∧ |sy| ≤ 1/2) → main_loop_cursor_step c p sx sy = none) ∧
    (p.setOk = true → (c.move_cursor_relative p sx sy).isSome = true) := by
  refine ⟨?_, ?_, ?_⟩
  · intro h
    unfold main_loop_cursor_step
    rw [if_pos h]
  · intro h
    have hno : ¬ (1/2 < |sx| ∨ 1/2 < |sy|) := by
      push_neg
      exact h
    unfold main_loop_cursor_step
    rw [if_neg hno]
  · intro hset
    unfold CursorController.move_cursor_relative
    simp [hset]

/-- Witness for C9: a sub-dead-zone smoothed delta skips actuation. -/
theorem deadzone_enforced_in_main_loop_witness :
    main_loop_cursor_step defaultController (Platform.mk true (500, 500) true)
      (1/4) (1/4) = none :=
  (deadzone_enforced_in_main_loop defaultController (Platform.mk true (500, 500) true)
    (1/4) (1/4)).2.1 ⟨by rw [abs_le]; norm_num, by rw [abs_le]; norm_num⟩

/-- C10: in the degenerate case where `2·boundary_margin` strictly exceeds
a screen dimension, `_apply_boundaries` is total and returns exactly
`boundary_margin` on that axis for every input coordinate. -/
theorem apply_boundaries_degenerate (c : CursorController) (x y : ℚ) :
    (c.screen_width < 2 * c.boundary_margin →
      (c.apply_boundaries x y).1 = c.boundary_margin) ∧
    (c.screen_height < 2 * c.boundary_margin →
      (c.apply_boundaries x y).2 = c.boundary_margin) := by
  constructor
  · intro h
    have hlt : (c.screen_width : ℚ) - (c.boundary_margin : ℚ) < (c.boundary_margin : ℚ) := by
      exact_mod_cast (by omega : c.screen_width - c.boundary_margin < c.boundary_margin)
    have hmax : max (c.boundary_margin : ℚ)
        (min ((c.screen_width : ℚ) - (c.boundary_margin : ℚ)) x) = (c.boundary_margin : ℚ) :=
      max_eq_left (le_of_lt (lt_of_le_of_lt (min_le_left _ _) hlt))
    unfold CursorController.apply_boundaries
    simp only [hmax]
    exact pyTrunc_intCast _
  · intro h
    have hlt : (c.screen_height : ℚ) - (c.boundary_margin : ℚ) < (c.boundary_margin : ℚ) := by
      exact_mod_cast (by omega : c.screen_height - c.boundary_margin < c.boundary_margin)
    have hmax : max (c.boundary_margin : ℚ)
        (min ((c.screen_height : ℚ) - (c.boundary_margin : ℚ)) y) = (c.boundary_margin : ℚ) :=
      max_eq_left (le_of_lt (lt_of_le_of_lt (min_le_left _ _) hlt))
    unfold CursorController.apply_boundaries
    simp only [hmax]
    exact pyTrunc_intCast _

/-- Witness for C10 at a concrete degenerate controller. -/
theorem apply_boundaries_degenerate_witness :
    (degenerateController.apply_boundaries 123 456).1 = 600 :=
  (apply_boundaries_degenerate degenerateController 123 456).1 (by decide)

/-- C8: all four configuration mutators clamp or reject as specified:
the transformer's sensitivity into `[0.1, 5.0]`, the actuator's
sensitivity into `[0.1, 10.0]`, the boundary margin into `[0, 500]`, and
an unrecognized movement mode leaves the prior mode unchanged. -/
theorem config_mutators_clamp (t : CoordinateTransformer) (c : CursorController)
    (v w : ℚ) (m : ℤ) (mode : String) :
    (1/10 ≤ (t.set_sensitivity v).calibration_data.sensitivity ∧
      (t.set_sensitivity v).calibration_data.sensitivity ≤ 5 ∧
      (5 ≤ v → (t.set_sensitivity v).calibration_data.sensitivity = 5) ∧
      (v ≤ 1/10 → (t.set_sensitivity v).calibration_data.sensitivity = 1/10) ∧
      (1/10 ≤ v → v ≤ 5 → (t.set_sensitivity v).calibration_data.sensitivity = v)) ∧
    (1/10 ≤ (c.set_sensitivity w).sensitivity ∧
      (c.set_sensitivity w).sensitivity ≤ 10 ∧
      (10 ≤ w → (c.set_sensitivity w).sensitivity = 10) ∧
      (w ≤ 1/10 → (c.set_sensitivity w).sensitivity = 1/10) ∧
      (1/10 ≤ w → w ≤ 10 → (c.set_sensitivity w).sensitivity = w)) ∧
    (0 ≤ (c.set_boundary_margin m).boundary_margin ∧
      (c.set_boundary_margin m).boundary_margin ≤ 500 ∧
      (500 ≤ m → (c.set_boundary_margin m).boundary_margin = 500) ∧
      (m ≤ 0 → (c.set_boundary_margin m).boundary_margin = 0) ∧
      (0 ≤ m → m ≤ 500 → (c.set_boundary_margin m).boundary_margin = m)) ∧
    (mode ≠ "relative" → mode ≠ "absolute" →
      (c.set_movement_mode mode).movement_mode = c.movement_mode) := by
  refine ⟨⟨?_, ?_, ?_, ?_, ?_⟩, ⟨?_, ?_, ?_, ?_, ?_⟩, ⟨?_, ?_, ?_, ?_, ?_⟩, ?_⟩
  · exact le_max_left _ _
  · exact max_le (by norm_num) (min_le_left _ _)
  · intro h
    simp only [CoordinateTransformer.set_sensitivity]
    rw [min_eq_left h, max_eq_right (by norm_num)]
  · intro h
    simp only [CoordinateTransformer.set_sensitivity]
    exact max_eq_left (le_trans (min_le_right _ _) h)
  · intro h1 h2
    simp only [CoordinateTransformer.set_sensitivity]
    rw [min_eq_right h2, max_eq_right h1]
  · exact le_max_left _ _
  · exact max_le (by norm_num) (min_le_left _ _)
  · intro h
    simp only [CursorController.set_sensitivity]
    rw [min_eq_left h, max_eq_right (by norm_num)]
  · intro h
    simp only [CursorController.set_sensitivity]
    exact max_eq_left (le_trans (min_le_right _ _) h)
  · intro h1 h2
    simp only [CursorController.set_sensitivity]
    rw [min_eq_right h2, max_eq_right h1]
  · exact le_max_left _ _
  · exact max_le (by norm_num) (min_le_left _ _)
  · intro h
    simp only [CursorController.set_boundary_margin]
    rw [min_eq_left h, max_eq_right (by norm_num)]
  · intro h
    simp only [CursorController.set_boundary_margin]
    exact max_eq_left (le_trans (min_le_right _ _) h)
  · intro h1 h2
    simp only [CursorController.set_boundary_margin]
    rw [min_eq_right h2, max_eq_right h1]
  · intro h1 h2
    simp [CursorController.set_movement_mode, h1, h2]

/-- Witness for C8: `20.0 → 5.0` and `0.05 → 0.1` on the two sensitivity
setters, `900 → 500` on the margin, and `"invalid"` keeps the mode. -/
theorem config_mutators_clamp_witness :
    (init640.set_sensitivity 20).calibration_data.sensitivity = 5 ∧
    (defaultController.set_sensitivity (1/20)).sensitivity = 1/10 ∧
    (defaultController.set_boundary_margin 900).boundary_margin = 500 ∧
    (defaultController.set_movement_mode "invalid").movement_mode =
      defaultController.movement_mode := by
  have h := config_mutators_clamp init640 defaultController 20 (1/20) 900 "invalid"
  exact ⟨h.1.2.2.1 (by norm_num), h.2.1.2.2.2.1 (by norm_num),
    h.2.2.1.2.2.1 (by norm_num), h.2.2.2 (by decide) (by decide)⟩

/- ### Helper lemmas about `matchedOf` -/

theorem matchedOf_nil {α : Type} (xs : List α) : matchedOf [] xs = [] := by
  simp [matchedOf]

theorem matchedOf_nil_right {α : Type} (status : List ℕ) :
    matchedOf status ([] : List α) = [] := by
  simp [matchedOf]

theorem matchedOf_cons {α : Type} (s : ℕ) (st : List ℕ) (x : α) (xt : List α) :
    matchedOf (s :: st) (x :: xt) =
      if s == 1 then x :: matchedOf st xt else matchedOf st xt := by
  simp only [matchedOf, List.zip_cons_cons, List.filter_cons]
  split <;> simp

/-- Selecting from a zipped list with the same mask selects the zip of the
two selections (given the parallel-length invariant). -/
theorem matchedOf_zip {α β : Type} :
    ∀ (status : List ℕ) (xs : List α) (ys : List β),
      xs.length = status.length → ys.length = status.length →
      matchedOf status (xs.zip ys) = (matchedOf status xs).zip (matchedOf status ys) := by
  intro status
  induction status with
  | nil =>
    intro xs ys hx hy
    simp [matchedOf_nil]
  | cons s st ih =>
    intro xs ys hx hy
    cases xs with
    | nil => simp at hx
    | cons x xt =>
      cases ys with
      | nil => simp at hy
      | cons y yt =>
        simp only [List.length_cons, Nat.add_right_cancel_iff] at hx hy
        rw [List.zip_cons_cons, matchedOf_cons, matchedOf_cons, matchedOf_cons]
        by_cases hs : (s == 1) = true
        · simp only [hs, if_true, List.zip_cons_cons]
          rw [ih xt yt hx hy]
        · simp only [hs, if_false]
          exact ih xt yt hx hy

/-- The number of selected elements equals the number of 1-flags in the
mask (given the parallel-length invariant). -/
theorem matchedOf_length {α : Type} :
    ∀ (status : List ℕ) (xs : List α),
      xs.length = status.length →
      (matchedOf status xs).length = (status.filter (fun s => s == 1)).length := by
  intro status
  induction status with
  | nil =>
    intro xs hx
    simp [matchedOf_nil]
  | cons s st ih =>
    intro xs hx
    cases xs with
    | nil => simp at hx
    | cons x xt =>
      simp only [List.length_cons, Nat.add_right_cancel_iff] at hx
      rw [matchedOf_cons, List.filter_cons]
      by_cases hs : (s == 1) = true
      · simp only [hs, if_true, List.length_cons]
        rw [ih xt hx]
      · simp only [hs, if_false]
        exact ih xt hx

/-- With 0/1 flags, the numpy sum of the status array counts the matched
entries. -/
theorem sum_eq_count_ones :
    ∀ (status : List ℕ), (∀ s ∈ status, s ≤ 1) →
      status.sum = (status.filter (fun s => s == 1)).length := by
  intro status
  induction status with
  | nil => intro _; rfl
  | cons a l ih =>
    intro h
    have ha : a ≤ 1 := h a (List.mem_cons_self a l)
    have hl : ∀ s ∈ l, s ≤ 1 := fun s hs => h s (List.mem_cons_of_mem a hs)
    rw [List.sum_cons, List.filter_cons, ih hl]
    interval_cases a <;> simp [Nat.add_comm]

/-- C2: `validate_tracking_quality` returns `false` exactly when the
status sequence is empty, or the fraction of matched (status = 1) entries
is below one half, or the mean error over the matched entries exceeds the
threshold (assuming 0/1 flags and the parallel-length invariant between
status and error). -/
theorem validate_tracking_quality_iff (status : List ℕ) (error : List ℚ) (threshold : ℚ)
    (hlen : error.length = status.length) (h01 : ∀ s ∈ status, s ≤ 1) :
    (MotionTracker.validate_tracking_quality status error threshold = false ↔
      (status = [] ∨
        ((status.filter (fun s => s == 1)).length : ℚ) / (status.length : ℚ) < 1/2 ∨
        threshold < (matchedOf status error).sum / ((matchedOf status error).length : ℚ))) := by
  have hsum : (status.sum : ℚ) = ((status.filter (fun s => s == 1)).length : ℚ) := by
    exact_mod_cast congrArg Nat.cast (sum_eq_count_ones status h01)
  simp only [MotionTracker.validate_tracking_quality]
  by_cases h0 : status.length = 0
  · have hnil : status = [] := List.length_eq_zero.mp h0
    simp [h0, hnil]
  · rw [if_neg h0]
    by_cases h1 : (status.sum : ℚ) / (status.length : ℚ) < 1/2
    · rw [if_pos h1]
      refine iff_of_true rfl (Or.inr (Or.inl ?_))
      rw [← hsum]
      exact h1
    · rw [if_neg h1]
      have herr : 0 < error.length := by
        rw [hlen]
        omega
      rw [if_pos herr]
      by_cases h2 : threshold <
          (matchedOf status error).sum / ((matchedOf status error).length : ℚ)
      · rw [if_pos h2]
        exact iff_of_true rfl (Or.inr (Or.inr h2))
      · rw [if_neg h2]
        refine iff_of_false (by simp) ?_
        rintro (hnil | hfrac | havg)
        · exact h0 (by rw [hnil]; rfl)
        · rw [← hsum] at hfrac
          exact h1 hfrac
        · exact h2 havg

/-- Witness for C2: exactly 50% matched with matched mean error within the
threshold passes the quality check. -/
theorem validate_tracking_quality_iff_witness :
    MotionTracker.validate_tracking_quality [1, 0] [10, 99] 50 = true := by
  have h := validate_tracking_quality_iff [1, 0] [10, 99] 50 rfl (by decide)
  rcases Bool.eq_false_or_eq_true
      (MotionTracker.validate_tracking_quality [1, 0] [10, 99] 50) with hb | hb
  · exact hb
  · exfalso
    have hfalse := h.mp hb
    rcases hfalse with hnil | hfrac | havg
    · exact absurd hnil (by simp)
    · norm_num at hfrac
    · rw [matchedOf_cons, matchedOf_cons, matchedOf_nil] at havg
      norm_num at havg

/-- C3: `calculate_movement_delta` computes the mean displacement
`current − previous` over the points whose status is 1 (and `(0, 0)` when
no point is matched or a point list is empty), i.e. it agrees with the
spec's `computeDelta` under the parallel-length invariant; concretely the
two table tests from the spec hold. -/
theorem calculate_movement_delta_mean :
    (∀ (prev_points curr_points : List (ℚ × ℚ)) (status : List ℕ),
      prev_points.length = status.length → curr_points.length = status.length →
      MotionTracker.calculate_movement_delta prev_points curr_points status =
        computeDelta_spec prev_points curr_points status) ∧
    MotionTracker.calculate_movement_delta [(100, 100), (200, 200)]
      [(105, 103), (205, 203)] [1, 1] = (5, 3) ∧
    MotionTracker.calculate_movement_delta [(100, 100), (200, 200)]
      [(105, 103), (205, 203)] [1, 0] = (5, 3) := by
  refine ⟨?_, ?_, ?_⟩
  · intro prev curr status hp hc
    simp only [MotionTracker.calculate_movement_delta, computeDelta_spec]
    by_cases hpe : prev.length = 0 ∨ curr.length = 0
    · rw [if_pos hpe]
      have hst : status = [] := by
        rcases hpe with h | h <;> exact List.length_eq_zero.mp (by omega)
      subst hst
      rw [matchedOf_nil]
      simp
    · rw [if_neg hpe]
      have hzip := matchedOf_zip status curr prev hc hp
      have hll : (matchedOf status curr).length = (matchedOf status prev).length := by
        rw [matchedOf_length status curr hc, matchedOf_length status prev hp]
      rw [hzip]
      have hdlen : (((matchedOf status curr).zip (matchedOf status prev)).map
          (fun p => (p.1.1 - p.2.1, p.1.2 - p.2.2))).length =
            (matchedOf status curr).length := by
        rw [List.length_map, List.length_zip, hll, min_self]
      by_cases hg : (matchedOf status curr).length = 0
      · rw [if_pos hg, if_pos (by rw [hdlen]; exact hg)]
      · rw [if_neg hg, if_neg (by rw [hdlen]; exact hg)]
  · norm_num [MotionTracker.calculate_movement_delta, matchedOf_cons, matchedOf_nil]
  · norm_num [MotionTracker.calculate_movement_delta, matchedOf_cons, matchedOf_nil]

/-- Witness for C3 at the spec's table test with only the first point
matched. -/
theorem calculate_movement_delta_mean_witness :
    ([(100, 100), (200, 200)] : List (ℚ × ℚ)).length = ([1, 0] : List ℕ).length ∧
    ([(105, 103), (205, 203)] : List (ℚ × ℚ)).length = ([1, 0] : List ℕ).length ∧
    MotionTracker.calculate_movement_delta [(100, 100), (200, 200)]
        [(105, 103), (205, 203)] [1, 0] =
      computeDelta_spec [(100, 100), (200, 200)] [(105, 103), (205, 203)] [1, 0] :=
  ⟨rfl, rfl,
    calculate_movement_delta_mean.1 [(100, 100), (200, 200)]
      [(105, 103), (205, 203)] [1, 0] rfl rfl⟩

/-- C7: per color-tracking frame, the delta is `current − previous`
centroid when both are present and `(0, 0)` otherwise, and the stored
previous centroid is overwritten with the current detection result
unconditionally (including to absent), so the frame after a missed
detection also yields `(0, 0)`. -/
theorem track_color_delta (prev_centroid centroid : Option (ℤ × ℤ)) :
    ((MotionTracker.track_color prev_centroid centroid).2 = centroid) ∧
    (∀ c p : ℤ × ℤ, centroid = some c → prev_centroid = some p →
      (MotionTracker.track_color prev_centroid centroid).1 =
        ((c.1 : ℚ) - (p.1 : ℚ), (c.2 : ℚ) - (p.2 : ℚ))) ∧
    ((centroid = none ∨ prev_centroid = none) →
      (MotionTracker.track_color prev_centroid centroid).1 = (0, 0)) ∧
    (∀ c : ℤ × ℤ,
      (MotionTracker.track_color (MotionTracker.track_color prev_centroid none).2
        (some c)).1 = (0, 0)) := by
  refine ⟨?_, ?_, ?_, ?_⟩
  · cases centroid <;> cases prev_centroid <;> rfl
  · intro c p hc hp
    subst hc
    subst hp
    rfl
  · rintro (h | h)
    · subst h
      rfl
    · subst h
      cases centroid <;> rfl
  · intro c
    rfl

/-- Witness for C7: both centroids present gives the centroid difference. -/
theorem track_color_delta_witness :
    (MotionTracker.track_color (some (1, 2)) (some (4, 6))).1 = (3, 4) := by
  have h := (track_color_delta (some (1, 2)) (some (4, 6))).2.1 (4, 6) (1, 2) rfl rfl
  rw [h]
  norm_num

/-- The deque never shrinks below one element after a push, and caps at
ten. -/
theorem dequePush_length (buf : List (ℚ × ℚ)) (x : ℚ × ℚ) :
    (dequePush buf x).length = min (buf.length + 1) 10 := by
  unfold dequePush
  simp only [List.length_append, List.length_singleton]
  split <;> simp_all [List.length_drop, List.length_append] <;> omega

/-- C4: the smoothed delta equals the raw delta weighted by
`smoothing_factor` plus the remaining weight `(1 − smoothing_factor)`
times the average of the other buffered samples; when the buffer held
nothing before the call, the result is exactly
`rawDelta × smoothing_factor` (the first movement after a reset is
damped, not passed through). -/
theorem apply_movement_smoothing_formula (t : CoordinateTransformer) (dx dy : ℚ) :
    ((t.apply_movement_smoothing dx dy).1 =
      (dx * t.smoothing_factor + (1 - t.smoothing_factor) *
        ((((dequePush t.movement_buffer (dx, dy)).dropLast.map Prod.fst).sum) /
          (((dequePush t.movement_buffer (dx, dy)).dropLast.length : ℚ))),
       dy * t.smoothing_factor + (1 - t.smoothing_factor) *
        ((((dequePush t.movement_buffer (dx, dy)).dropLast.map Prod.snd).sum) /
          (((dequePush t.movement_buffer (dx, dy)).dropLast.length : ℚ))))) ∧
    (t.movement_buffer = [] →
      (t.apply_movement_smoothing dx dy).1 =
        (dx * t.smoothing_factor, dy * t.smoothing_factor)) := by
  have hlen := dequePush_length t.movement_buffer (dx, dy)
  have hne : ¬ (dequePush t.movement_buffer (dx, dy)).length = 0 := by omega
  constructor
  · simp only [CoordinateTransformer.apply_movement_smoothing]
    rw [if_neg hne]
    by_cases h1 : 1 < (dequePush t.movement_buffer (dx, dy)).length
    · rw [if_pos h1]
      have hfst : ((dequePush t.movement_buffer (dx, dy)).dropLast.map
            (fun p : ℚ × ℚ => p.1 * ((1 - t.smoothing_factor) /
              ((dequePush t.movement_buffer (dx, dy)).dropLast.length : ℚ)))).sum =
          ((dequePush t.movement_buffer (dx, dy)).dropLast.map Prod.fst).sum *
            ((1 - t.smoothing_factor) /
              ((dequePush t.movement_buffer (dx, dy)).dropLast.length : ℚ)) :=
        List.sum_map_mul_right _ _ _
      have hsnd : ((dequePush t.movement_buffer (dx, dy)).dropLast.map
            (fun p : ℚ × ℚ => p.2 * ((1 - t.smoothing_factor) /
              ((dequePush t.movement_buffer (dx, dy)).dropLast.length : ℚ)))).sum =
          ((dequePush t.movement_buffer (dx, dy)).dropLast.map Prod.snd).sum *
            ((1 - t.smoothing_factor) /
              ((dequePush t.movement_buffer (dx, dy)).dropLast.length : ℚ)) :=
        List.sum_map_mul_right _ _ _
      rw [hfst, hsnd]
      refine Prod.ext ?_ ?_ <;> simp only [] <;> ring
    · rw [if_neg h1]
      have hd : (dequePush t.movement_buffer (dx, dy)).dropLast = [] := by
        have hdl : (dequePush t.movement_buffer (dx, dy)).dropLast.length = 0 := by
          rw [List.length_dropLast]
          omega
        exact List.eq_nil_of_length_eq_zero hdl
      rw [hd]
      simp
  · intro h
    simp only [CoordinateTransformer.apply_movement_smoothing]
    rw [if_neg hne]
    have hl0 : t.movement_buffer.length = 0 := by
      rw [h]
      rfl
    have h1 : ¬ 1 < (dequePush t.movement_buffer (dx, dy)).length := by omega
    rw [if_neg h1]

/-- Witness for C4: the very first smoothed movement on a fresh
transformer is the raw delta scaled by the smoothing factor. -/
theorem apply_movement_smoothing_formula_witness :
    (init640.apply_movement_smoothing 4 6).1 = (4 * (3/10 : ℚ), 6 * (3/10 : ℚ)) :=
  (apply_movement_smoothing_formula init640 4 6).2 rfl

end OpticalMouse
